import Mathlib

/-!
# rejit: the command-line driver `example.c`

A shallow embedding of `main` from `src/example.c` together with the matcher
it links against.

* C strings (`char*`, NUL-terminated) are Lean `String`s; the argument vector
  `argv` is a `List String` and `argc` is its length, as the hosted C
  environment guarantees.
* The two effects of the program, writing to standard output and calling the
  external predicate, are threaded through an explicit `World`.
* The external predicate itself is not part of the source file; the driver
  takes it as a parameter, and the finite-automaton matcher described by the
  specification is modelled separately as `Pattern`.
-/

namespace Rejit

/-! ## The driver -/

/-- Observable state of one run: the text written to standard output so far
and the inputs handed to the external matcher, oldest first. -/
structure World where
  stdout : String
  calls : List String
deriving DecidableEq, Repr

/-- Expansion of a `printf` format string. The program only uses `%s`, which
prints the next string argument in full; `%%` is C's escape for a percent
sign, and every other character is copied as it stands. -/
def format : List Char → List String → List Char
  | [], _ => []
  | '%' :: 's' :: fmt, a :: args => a.data ++ format fmt args
  | '%' :: '%' :: fmt, args => '%' :: format fmt args
  | c :: fmt, args => c :: format fmt args

/-- The call `printf(fmt, args...)`: appends the expanded text to standard output. -/
def printf (fmt : String) (args : List String) (w : World) : World :=
  { w with stdout := w.stdout ++ String.mk (format fmt.data args) }

/-- One call of the external predicate on `input`: the call is recorded and
the predicate's verdict is returned. -/
def callMatches (matcher : String → Bool) (input : String) (w : World) : Bool × World :=
  (matcher input, { w with calls := w.calls ++ [input] })

/-- The function `main` of `example.c`, over the external predicate `matcher`.
Returns the exit code and the final world. -/
def main (matcher : String → Bool) (argv : List String) (w : World) : Int × World :=
  let argc : Int := argv.length
  if h : argc < 2 then
    let w := printf "Missing expression.\n" [] w
    (1, w)
  else
    let r := callMatches matcher (argv.get ⟨1, by omega⟩) w
    let w := r.2
    let w :=
      if r.1 then
        printf "Expression '%s' matches.\n" [argv.get ⟨1, by omega⟩] w
      else
        printf "Expression '%s' does NOT match.\n" [argv.get ⟨1, by omega⟩] w
    (0, w)

/-- What one invocation of the program leaves behind. -/
structure Run where
  stdout : String
  calls : List String
  exitCode : Int
deriving DecidableEq, Repr

/-- Runs `main` from a fresh process: nothing printed, matcher not yet called. -/
def runMain (matcher : String → Bool) (argv : List String) : Run :=
  let r := main matcher argv ⟨"", []⟩
  ⟨r.2.stdout, r.2.calls, r.1⟩

/-- The outcome of an invocation as the user understands it: `none` when the
expression is missing, otherwise the expression together with the verdict of
the matcher on it. -/
def outcome (matcher : String → Bool) (argv : List String) : Option (String × Bool) :=
  match argv with
  | _ :: e :: _ => some (e, matcher e)
  | _ => none

/-! ## The matcher -/

/-- Modelled from the spec: the compiled pattern behind the external
predicate, whose definition is not among the sources. A finite-state
representation with a distinguished start state, a set of accepting states
and a transition relation from a state and an input symbol to the next
states. -/
structure Pattern where
  start : Nat
  accepting : List Nat
  delta : Nat → Char → List Nat

namespace Pattern

/-- Modelled from the spec: the next set of active states after one input
symbol, computed through the transition relation. -/
def step (P : Pattern) (active : List Nat) (c : Char) : List Nat :=
  active.flatMap fun q => P.delta q c

/-- Modelled from the spec: symbol-by-symbol simulation of the automaton from
a set of active states. An empty active set rejects at once; after the last
symbol the input is accepted when the active set meets the accepting states. -/
def simulate (P : Pattern) : List Nat → List Char → Bool
  | active, [] => active.any fun q => decide (q ∈ P.accepting)
  | active, c :: cs =>
    if (P.step active c).isEmpty then false else P.simulate (P.step active c) cs

/-- Modelled from the spec: the operation `matches(pattern, input)`, the
simulation started from the start state alone. (`matches` is reserved in
Lean, hence the longer name.) -/
def matchesInput (P : Pattern) (input : String) : Bool :=
  P.simulate [P.start] input.data

/-- Modelled from the spec: `Reaches q cs r` says that the symbols `cs`, read
one after the other with none skipped, drive the automaton from `q` to `r`. -/
inductive Reaches (P : Pattern) : Nat → List Char → Nat → Prop
  | done (q : Nat) : Reaches P q [] q
  | next {q q1 r : Nat} {c : Char} {cs : List Char} :
      q1 ∈ P.delta q c → Reaches P q1 cs r → Reaches P q (c :: cs) r

/-- Modelled from the spec: the whole input drives the automaton from its
start state to some accepting state. -/
def Accepts (P : Pattern) (input : String) : Prop :=
  ∃ r, P.Reaches P.start input.data r ∧ r ∈ P.accepting

end Pattern

/-! ## Facts about the driver -/

theorem runMain_missing (matcher : String → Bool) (argv : List String)
    (h : argv.length < 2) :
    runMain matcher argv = ⟨"Missing expression.\n", [], 1⟩ := by
  have hg : (argv.length : Int) < 2 := by omega
  simp only [runMain, main, dif_pos hg, printf]
  rfl

theorem runMain_supplied (matcher : String → Bool) (p e : String) (rest : List String) :
    runMain matcher (p :: e :: rest) =
      ⟨"Expression '" ++ e ++ (if matcher e then "' matches.\n" else "' does NOT match.\n"),
        [e], 0⟩ := by
  have hg : ¬ (((p :: e :: rest).length : Int) < 2) := by
    simp only [List.length_cons]
    omega
  cases h : matcher e
  · simp only [runMain, main, dif_neg hg, callMatches, printf, List.get, h]
    rfl
  · simp only [runMain, main, dif_neg hg, callMatches, printf, List.get, h]
    rfl

theorem argv_supplied (argv : List String) (h : 1 < argv.length) :
    ∃ p rest, argv = p :: argv.get ⟨1, h⟩ :: rest := by
  match argv, h with
  | p :: e :: rest, _ => exact ⟨p, rest, rfl⟩

theorem verdict_ne_missing (e t : String) :
    "Expression '" ++ e ++ t ≠ "Missing expression.\n" := by
  intro h
  have h2 := congrArg String.data h
  simp [String.data_append] at h2

theorem match_ne_no_match (e1 e2 : String) :
    "Expression '" ++ e1 ++ "' matches.\n" ≠ "Expression '" ++ e2 ++ "' does NOT match.\n" := by
  intro h
  have h2 := congrArg (fun s => s.data.reverse) h
  simp [String.data_append] at h2

theorem verdict_cancel (e1 e2 t : String)
    (h : "Expression '" ++ e1 ++ t = "Expression '" ++ e2 ++ t) : e1 = e2 := by
  have h2 := congrArg String.data h
  simp [String.data_append] at h2
  exact String.ext h2

/-! ## Missing expression -/

/-- C1: when no expression argument is supplied (argc < 2), whatever the
matcher, standard output is exactly the line `Missing expression.` followed
by one newline and the exit code is 1. -/
theorem main_missing_expression (matcher : String → Bool) (argv : List String)
    (h : argv.length < 2) :
    (runMain matcher argv).stdout = "Missing expression.\n" ∧
      (runMain matcher argv).exitCode = 1 := by
  rw [runMain_missing matcher argv h]
  exact ⟨rfl, rfl⟩

theorem main_missing_expression_witness :
    ["rejit"].length < 2 ∧
      (runMain (fun s => decide (s = "abc")) ["rejit"]).stdout = "Missing expression.\n" ∧
      (runMain (fun s => decide (s = "abc")) ["rejit"]).exitCode = 1 :=
  ⟨by decide, main_missing_expression (fun s => decide (s = "abc")) ["rejit"] (by decide)⟩

/-! ## Verdicts -/

/-- C2: when an expression `e = argv[1]` is supplied and the matcher accepts
it, standard output is exactly `Expression '`, then `e` character for
character, then `' matches.` and one newline, and the exit code is 0. -/
theorem main_prints_match (matcher : String → Bool) (argv : List String)
    (h : 1 < argv.length) (hm : matcher (argv.get ⟨1, h⟩) = true) :
    (runMain matcher argv).stdout = "Expression '" ++ argv.get ⟨1, h⟩ ++ "' matches.\n" ∧
      (runMain matcher argv).exitCode = 0 := by
  obtain ⟨p, rest, hargv⟩ := argv_supplied argv h
  generalize argv.get ⟨1, h⟩ = e at hm hargv ⊢
  subst hargv
  rw [runMain_supplied, hm]
  exact ⟨rfl, rfl⟩

theorem main_prints_match_witness :
    1 < ["rejit", "abc"].length ∧ decide ("abc" = "abc") = true ∧
      (runMain (fun s => decide (s = "abc")) ["rejit", "abc"]).stdout
        = "Expression 'abc' matches.\n" ∧
      (runMain (fun s => decide (s = "abc")) ["rejit", "abc"]).exitCode = 0 :=
  ⟨by decide, by decide,
    main_prints_match (fun s => decide (s = "abc")) ["rejit", "abc"] (by decide) (by decide)⟩

/-- C3: when an expression `e = argv[1]` is supplied, the empty string
included, and the matcher rejects it, standard output is exactly
`Expression '`, then `e`, then `' does NOT match.` and one newline, and the
exit code is 0. -/
theorem main_prints_no_match (matcher : String → Bool) (argv : List String)
    (h : 1 < argv.length) (hm : matcher (argv.get ⟨1, h⟩) = false) :
    (runMain matcher argv).stdout
        = "Expression '" ++ argv.get ⟨1, h⟩ ++ "' does NOT match.\n" ∧
      (runMain matcher argv).exitCode = 0 := by
  obtain ⟨p, rest, hargv⟩ := argv_supplied argv h
  generalize argv.get ⟨1, h⟩ = e at hm hargv ⊢
  subst hargv
  rw [runMain_supplied, hm]
  exact ⟨rfl, rfl⟩

theorem main_prints_no_match_witness :
    (1 < ["rejit", "abd"].length ∧ decide ("abd" = "abc") = false ∧
      (runMain (fun s => decide (s = "abc")) ["rejit", "abd"]).stdout
        = "Expression 'abd' does NOT match.\n" ∧
      (runMain (fun s => decide (s = "abc")) ["rejit", "abd"]).exitCode = 0) ∧
    (1 < ["rejit", ""].length ∧ decide ("" = "abc") = false ∧
      (runMain (fun s => decide (s = "abc")) ["rejit", ""]).stdout
        = "Expression '' does NOT match.\n" ∧
      (runMain (fun s => decide (s = "abc")) ["rejit", ""]).exitCode = 0) :=
  ⟨⟨by decide, by decide,
      main_prints_no_match (fun s => decide (s = "abc")) ["rejit", "abd"] (by decide) (by decide)⟩,
    ⟨by decide, by decide,
      main_prints_no_match (fun s => decide (s = "abc")) ["rejit", ""] (by decide) (by decide)⟩⟩

/-! ## Exit code -/

/-- C4: the exit code does not depend on the matcher: any two matchers give
the same exit code on the same argument vector; the exit code is 0 or 1, and
it is non-zero exactly when the expression argument is missing. -/
theorem main_exit_code (m1 m2 : String → Bool) (argv : List String) :
    (runMain m1 argv).exitCode = (runMain m2 argv).exitCode ∧
      ((runMain m1 argv).exitCode = 0 ∨ (runMain m1 argv).exitCode = 1) ∧
      ((runMain m1 argv).exitCode ≠ 0 ↔ argv.length < 2) := by
  by_cases h : argv.length < 2
  · rw [runMain_missing m1 argv h, runMain_missing m2 argv h]
    simp [h]
  · obtain ⟨p, rest, hargv⟩ := argv_supplied argv (by omega)
    generalize argv.get ⟨1, _⟩ = e at hargv
    subst hargv
    rw [runMain_supplied, runMain_supplied]
    simp

/-! ## Argument count -/

/-- C5, as stated, fails: with two positional arguments (argc - 1 = 2, which
is different from one) the program does not print the diagnostic; it prints
the verdict for the first argument and exits with code 0. -/
theorem main_extra_argument_counterexample :
    ((["rejit", "abc", "extra"].length : Int) - 1 ≠ 1) ∧
      ¬ ((runMain (fun s => decide (s = "abc")) ["rejit", "abc", "extra"]).stdout
            = "Missing expression.\n" ∧
          (runMain (fun s => decide (s = "abc")) ["rejit", "abc", "extra"]).exitCode ≠ 0) := by
  decide

/-- C5, amended: the driver validates that at least one argument was
supplied. It prints the fixed diagnostic `Missing expression.` and returns a
non-zero exit code exactly when there is no positional argument
(argc - 1 < 1), and it proceeds to the match phase, calling the matcher,
exactly when at least one is given (argc - 1 >= 1), two or more included. -/
theorem main_validates_argument_count (matcher : String → Bool) (argv : List String) :
    (((runMain matcher argv).stdout = "Missing expression.\n" ∧
        (runMain matcher argv).exitCode ≠ 0) ↔ (argv.length : Int) - 1 < 1) ∧
      ((runMain matcher argv).calls ≠ [] ↔ 1 ≤ (argv.length : Int) - 1) := by
  by_cases h : argv.length < 2
  · rw [runMain_missing matcher argv h]
    constructor
    · constructor
      · intro _
        omega
      · intro _
        exact ⟨rfl, by decide⟩
    · constructor
      · intro hc
        exact absurd rfl hc
      · intro hc
        omega
  · obtain ⟨p, rest, hargv⟩ := argv_supplied argv (by omega)
    generalize argv.get ⟨1, _⟩ = e at hargv
    subst hargv
    rw [runMain_supplied]
    constructor
    · constructor
      · intro hc
        exact absurd hc.1 (verdict_ne_missing e _)
      · intro hc
        omega
    · constructor
      · intro _
        omega
      · intro _
        exact List.cons_ne_nil e []

/-! ## Calls to the matcher -/

/-- C7: a missing expression is detected before the matcher is invoked: when
argc < 2 the recorded sequence of matcher calls is empty, and the whole run
(output and exit code) is the same for every matcher. -/
theorem main_usage_error_skips_matcher (matcher : String → Bool) (argv : List String)
    (h : argv.length < 2) :
    (runMain matcher argv).calls = [] ∧
      ∀ other : String → Bool, runMain other argv = runMain matcher argv := by
  constructor
  · rw [runMain_missing matcher argv h]
  · intro other
    rw [runMain_missing matcher argv h, runMain_missing other argv h]

theorem main_usage_error_skips_matcher_witness :
    ([] : List String).length < 2 ∧
      (runMain (fun _ => true) []).calls = [] ∧
      ∀ other : String → Bool, runMain other [] = runMain (fun _ => true) [] :=
  ⟨by decide, main_usage_error_skips_matcher (fun _ => true) [] (by decide)⟩

/-- C8: when an expression is supplied (argc >= 2) the matcher is called
exactly once, on exactly `argv[1]`, and that same string is the one printed
between the quotes of the verdict. -/
theorem main_calls_matcher_once (matcher : String → Bool) (argv : List String)
    (h : 1 < argv.length) :
    (runMain matcher argv).calls = [argv.get ⟨1, h⟩] ∧
      (runMain matcher argv).stdout =
        "Expression '" ++ argv.get ⟨1, h⟩ ++
          (if matcher (argv.get ⟨1, h⟩) then "' matches.\n" else "' does NOT match.\n") := by
  obtain ⟨p, rest, hargv⟩ := argv_supplied argv h
  generalize argv.get ⟨1, h⟩ = e at hargv ⊢
  subst hargv
  rw [runMain_supplied]
  exact ⟨rfl, rfl⟩

theorem main_calls_matcher_once_witness :
    1 < ["rejit", "a'b", "c", "d"].length ∧
      (runMain (fun s => decide (s = "c")) ["rejit", "a'b", "c", "d"]).calls = ["a'b"] ∧
      (runMain (fun s => decide (s = "c")) ["rejit", "a'b", "c", "d"]).stdout =
        "Expression '" ++ "a'b" ++
          (if decide ("a'b" = "c") then "' matches.\n" else "' does NOT match.\n") :=
  ⟨by decide,
    main_calls_matcher_once (fun s => decide (s = "c")) ["rejit", "a'b", "c", "d"] (by decide)⟩

/-! ## Output determines outcome -/

/-- C9: the text on standard output determines the outcome. If two runs, of
any matchers on any argument vectors, print the same text, then either both
lacked the expression, or both had the same expression and the same verdict.
So a match message never equals a no-match message, equal messages of one
kind carry equal expressions, and neither kind equals the diagnostic. -/
theorem main_output_determines_outcome (m1 m2 : String → Bool) (argv1 argv2 : List String)
    (h : (runMain m1 argv1).stdout = (runMain m2 argv2).stdout) :
    outcome m1 argv1 = outcome m2 argv2 := by
  by_cases h1 : argv1.length < 2
  · have o1 : outcome m1 argv1 = none := by
      match argv1, h1 with
      | [], _ => rfl
      | [_], _ => rfl
    by_cases h2 : argv2.length < 2
    · have o2 : outcome m2 argv2 = none := by
        match argv2, h2 with
        | [], _ => rfl
        | [_], _ => rfl
      rw [o1, o2]
    · obtain ⟨p, rest, hargv⟩ := argv_supplied argv2 (by omega)
      generalize argv2.get ⟨1, _⟩ = e at hargv
      subst hargv
      rw [runMain_missing m1 argv1 h1, runMain_supplied] at h
      exact absurd h.symm (verdict_ne_missing e _)
  · obtain ⟨p1, rest1, hargv1⟩ := argv_supplied argv1 (by omega)
    generalize argv1.get ⟨1, _⟩ = e1 at hargv1
    subst hargv1
    by_cases h2 : argv2.length < 2
    · rw [runMain_missing m2 argv2 h2, runMain_supplied] at h
      exact absurd h (verdict_ne_missing e1 _)
    · obtain ⟨p2, rest2, hargv2⟩ := argv_supplied argv2 (by omega)
      generalize argv2.get ⟨1, _⟩ = e2 at hargv2
      subst hargv2
      rw [runMain_supplied, runMain_supplied] at h
      simp only [outcome]
      cases hm1 : m1 e1 <;> cases hm2 : m2 e2 <;> simp only [hm1, hm2] at h
      · have he : e1 = e2 := verdict_cancel e1 e2 _ h
        subst he
        rfl
      · exact absurd h.symm (match_ne_no_match e2 e1)
      · exact absurd h (match_ne_no_match e1 e2)
      · have he : e1 = e2 := verdict_cancel e1 e2 _ h
        subst he
        rfl

theorem main_output_determines_outcome_witness :
    (runMain (fun s => decide (s = "abc")) ["rejit", "' matches.\n"]).stdout
        = (runMain (fun _ => false) ["./a.out", "' matches.\n", "x"]).stdout ∧
      outcome (fun s => decide (s = "abc")) ["rejit", "' matches.\n"]
        = outcome (fun _ => false) ["./a.out", "' matches.\n", "x"] :=
  ⟨by decide,
    main_output_determines_outcome (fun s => decide (s = "abc")) (fun _ => false)
      ["rejit", "' matches.\n"] ["./a.out", "' matches.\n", "x"] (by decide)⟩

/-! ## Other arguments -/

/-- C10: only the first positional argument matters: two argument vectors of
length at least 2 that agree on `argv[1]` give, for the same matcher, the
same standard output and the same exit code, whatever the program name, the
further arguments and argc. -/
theorem main_ignores_other_arguments (matcher : String → Bool) (argv1 argv2 : List String)
    (h1 : 1 < argv1.length) (h2 : 1 < argv2.length)
    (he : argv1.get ⟨1, h1⟩ = argv2.get ⟨1, h2⟩) :
    (runMain matcher argv1).stdout = (runMain matcher argv2).stdout ∧
      (runMain matcher argv1).exitCode = (runMain matcher argv2).exitCode := by
  obtain ⟨p1, rest1, hargv1⟩ := argv_supplied argv1 h1
  obtain ⟨p2, rest2, hargv2⟩ := argv_supplied argv2 h2
  rw [← he] at hargv2
  generalize argv1.get ⟨1, h1⟩ = e at hargv1 hargv2
  subst hargv1
  subst hargv2
  rw [runMain_supplied, runMain_supplied]
  exact ⟨rfl, rfl⟩

theorem main_ignores_other_arguments_witness :
    ∃ (h1 : 1 < ["rejit", "abc"].length) (h2 : 1 < ["./a.out", "abc", "-v", ""].length),
      ["rejit", "abc"].get ⟨1, h1⟩ = ["./a.out", "abc", "-v", ""].get ⟨1, h2⟩ ∧
      (runMain (fun s => decide (s = "abc")) ["rejit", "abc"]).stdout
        = (runMain (fun s => decide (s = "abc")) ["./a.out", "abc", "-v", ""]).stdout ∧
      (runMain (fun s => decide (s = "abc")) ["rejit", "abc"]).exitCode
        = (runMain (fun s => decide (s = "abc")) ["./a.out", "abc", "-v", ""]).exitCode :=
  ⟨by decide, by decide, rfl,
    main_ignores_other_arguments (fun s => decide (s = "abc")) ["rejit", "abc"]
      ["./a.out", "abc", "-v", ""] (by decide) (by decide) rfl⟩

/-! ## The matcher: full-string acceptance -/

theorem Pattern.reaches_nil_iff (P : Pattern) (q r : Nat) :
    P.Reaches q [] r ↔ r = q := by
  constructor
  · intro h
    cases h
    rfl
  · intro h
    subst h
    exact Pattern.Reaches.done r

theorem Pattern.reaches_cons_iff (P : Pattern) (q r : Nat) (c : Char) (cs : List Char) :
    P.Reaches q (c :: cs) r ↔ ∃ q1, q1 ∈ P.delta q c ∧ P.Reaches q1 cs r := by
  constructor
  · intro h
    cases h with
    | next hq hr => exact ⟨_, hq, hr⟩
  · rintro ⟨q1, hq, hr⟩
    exact Pattern.Reaches.next hq hr

theorem Pattern.simulate_iff (P : Pattern) (cs : List Char) :
    ∀ active : List Nat,
      P.simulate active cs = true ↔
        ∃ q, q ∈ active ∧ ∃ r, P.Reaches q cs r ∧ r ∈ P.accepting := by
  induction cs with
  | nil =>
    intro active
    simp only [Pattern.simulate, List.any_eq_true, decide_eq_true_eq, Pattern.reaches_nil_iff]
    constructor
    · rintro ⟨q, hq, ha⟩
      exact ⟨q, hq, q, rfl, ha⟩
    · rintro ⟨q, hq, r, hr, ha⟩
      subst hr
      exact ⟨r, hq, ha⟩
  | cons c cs ih =>
    intro active
    have key : P.simulate active (c :: cs) = P.simulate (P.step active c) cs := by
      simp only [Pattern.simulate]
      split
      · rename_i hempty
        rw [List.isEmpty_iff] at hempty
        rw [hempty]
        cases hs : P.simulate [] cs
        · rfl
        · obtain ⟨q, hq, _⟩ := (ih []).mp hs
          exact absurd hq (List.not_mem_nil q)
      · rfl
    rw [key, ih]
    simp only [Pattern.step, List.mem_flatMap, Pattern.reaches_cons_iff]
    constructor
    · rintro ⟨q1, ⟨q, hq, hq1⟩, r, hr, ha⟩
      exact ⟨q, hq, r, ⟨q1, hq1, hr⟩, ha⟩
    · rintro ⟨q, hq, r, ⟨q1, hq1, hr⟩, ha⟩
      exact ⟨q1, ⟨q, hq, hq1⟩, r, hr, ha⟩

/-- C6: the predicate returns true exactly when the entire input, read from
the first character to the last with none skipped or left over, drives the
pattern from its start state to an accepting state; in particular the empty
input is matched exactly when the start state is accepting. -/
theorem Pattern.matches_iff_accepts (P : Pattern) (input : String) :
    (P.matchesInput input = true ↔ P.Accepts input) ∧
      (P.matchesInput "" = true ↔ P.start ∈ P.accepting) := by
  constructor
  · simp only [Pattern.matchesInput, Pattern.Accepts, Pattern.simulate_iff,
      List.mem_singleton]
    constructor
    · rintro ⟨q, hq, r, hr, ha⟩
      subst hq
      exact ⟨r, hr, ha⟩
    · rintro ⟨r, hr, ha⟩
      exact ⟨P.start, rfl, r, hr, ha⟩
  · show P.simulate [P.start] [] = true ↔ P.start ∈ P.accepting
    simp [Pattern.simulate]

end Rejit
